import Mathlib

/-!
Verification of the orchestration core of `scraper-kit` against its
natural-language specification.

The Lean definitions below are a shallow embedding of the Python sources:

* `src/scraper_kit/engine/health.py`       — rolling-window health scorer
* `src/scraper_kit/filtering/seen_set.py`  — history store / refetch decision
* `src/scraper_kit/filtering/card_filter.py` — candidate filtering
* `src/scraper_kit/engine/passive_tap.py`  — passive response tap
* `src/scraper_kit/engine/hybrid.py`       — hybrid fetch strategy

Python floats are modelled as rationals (ℚ), Python ints as ℤ/ℕ, dicts as
insertion-ordered association lists (matching CPython 3.7+ dict semantics:
updating an existing key keeps its position, new keys append at the end),
and fallible calls as `Except`-valued oracles.  Wall-clock time is replaced
by explicit timestamps / poll-tick sequences supplied as inputs.
-/

namespace ScraperKit

/-! ## Health monitor (`engine/health.py`)

`HealthMonitor` keeps a `collections.deque(maxlen=window)` of
`(timestamp, event)` pairs; the timestamp is never read by `score`,
`should_stop` or `should_backoff`, so events are modelled as the bare
event strings.  The default window is 20.
-/

namespace Health

/-- `_WEIGHTS` table from `health.py` lines 11-17 (`dict.get(event, 0.0)`
for unknown events). -/
def weight (e : String) : ℚ :=
  if e = "ok" then 1
  else if e = "captcha" then -(1/2)
  else if e = "timeout" then -(3/10)
  else if e = "empty" then -(1/10)
  else if e = "auth_expired" then -1
  else 0

/-- Recency factor of the event at index `i` in a window of length `n`:
`2.0 if i >= midpoint else 1.0` with `midpoint = n // 2` (`score`, line 47). -/
def recency (n i : ℕ) : ℚ := if n / 2 ≤ i then 2 else 1

/-- `total_weight` accumulated by the loop in `score` (lines 46-49). -/
def totalWeight (es : List String) : ℚ :=
  ∑ i ∈ Finset.range es.length, weight (es.getD i "") * recency es.length i

/-- `total_possible` accumulated by the loop in `score` (line 50):
`1.0 * recency` per event. -/
def totalPossible (es : List String) : ℚ :=
  ∑ i ∈ Finset.range es.length, recency es.length i

/-- `HealthMonitor.score` (lines 31-58) on a given retained window. -/
def score (es : List String) : ℚ :=
  if es = [] then 1
  else if totalPossible es = 0 then 1
  else max 0 (min 1 ((totalWeight es + totalPossible es) / (2 * totalPossible es)))

/-- Number of `auth_expired` events in the retained window (line 63). -/
def nAuth (es : List String) : ℕ := es.count "auth_expired"

/-- `HealthMonitor.should_stop` (lines 60-66). -/
def should_stop (es : List String) : Bool :=
  3 ≤ nAuth es || decide (score es < 3/10)

/-- `HealthMonitor.should_backoff` (lines 68-71). -/
def should_backoff (es : List String) : Bool :=
  decide (score es < 3/5)

/-- One `record` call (line 29): append to a `deque(maxlen=w)`, which drops
elements from the left when the length would exceed `w`. -/
def recordEvent (w : ℕ) (es : List String) (e : String) : List String :=
  if w < (es ++ [e]).length then (es ++ [e]).drop ((es ++ [e]).length - w)
  else es ++ [e]

/-- The retained window after recording a whole sequence of events on a
fresh `HealthMonitor()` (default window 20). -/
def windowOf (events : List String) : List String :=
  events.foldl (recordEvent 20) []

/-- `score` of the monitor after recording `events` on a fresh monitor. -/
def scoreSeq (events : List String) : ℚ := score (windowOf events)

/-- `should_stop` after recording `events` on a fresh monitor. -/
def shouldStopSeq (events : List String) : Bool := should_stop (windowOf events)

/-- `should_backoff` after recording `events` on a fresh monitor. -/
def shouldBackoffSeq (events : List String) : Bool := should_backoff (windowOf events)

end Health

/-! ## JSON values

A minimal JSON model for buffer payloads and the persisted history file.
JSON numbers are restricted to integers: every number the seen-set code
writes (`json.dump` of `likes`/`comments` ints) and every number the claims
exercise is an integer.
-/

inductive Json where
  | null : Json
  | bool (b : Bool) : Json
  | num (n : ℤ) : Json
  | str (s : String) : Json
  | arr (xs : List Json) : Json
  | obj (kvs : List (String × Json)) : Json
deriving Repr

/-- Python truthiness of a JSON value (`if not parsed: ...`). -/
def Json.falsy : Json → Bool
  | .null => true
  | .bool b => !b
  | .num n => n == 0
  | .str s => s == ""
  | .arr xs => xs.isEmpty
  | .obj kvs => kvs.isEmpty

mutual

/-- Structural equality of JSON values (Python `==` on decoded JSON). -/
def Json.beq : Json → Json → Bool
  | .null, .null => true
  | .bool a, .bool b => a == b
  | .num a, .num b => a == b
  | .str a, .str b => a == b
  | .arr a, .arr b => Json.beqList a b
  | .obj a, .obj b => Json.beqObj a b
  | _, _ => false

def Json.beqList : List Json → List Json → Bool
  | [], [] => true
  | x :: xs, y :: ys => Json.beq x y && Json.beqList xs ys
  | _, _ => false

def Json.beqObj : List (String × Json) → List (String × Json) → Bool
  | [], [] => true
  | (k1, v1) :: xs, (k2, v2) :: ys => k1 == k2 && Json.beq v1 v2 && Json.beqObj xs ys
  | _, _ => false

end

/-! ## Seen set (`filtering/seen_set.py`) -/

namespace Seen

/-- One normalized history entry: `{"likes": int, "comments": int, "ts": str}`.
The legacy-migration path in `load_seen` (line 64) produces dicts without a
`"ts"` key; since every reader accesses `ts` with a falsy default, an absent
key is modelled as `ts = ""`. -/
structure SeenEntry where
  likes : ℤ
  comments : ℤ
  ts : String
deriving DecidableEq, Repr

/-- `_safe_int` (`seen_set.py` lines 41-45): `int(value)` with a fallback
default on `TypeError`/`ValueError`.  On the JSON values reachable here:
ints pass through, booleans become 0/1, numeric strings parse, and
everything else falls back to the default. -/
def safe_int (v : Json) (d : ℤ) : ℤ :=
  match v with
  | .num n => n
  | .bool b => if b then 1 else 0
  | .str s => (s.toInt?).getD d
  | _ => d

/-- `json.dump` payload written by `save_seen` (lines 83-88): the history
dict serialized as a flat JSON object. -/
def save_seen_json (m : List (String × SeenEntry)) : Json :=
  .obj (m.map fun p =>
    (p.1, .obj [("likes", .num p.2.likes), ("comments", .num p.2.comments),
                ("ts", .str p.2.ts)]))

/-- `value.get("ts", "") or ""` (line 76): a falsy (`""`) or missing `ts`
becomes `""`; non-string truthy values (unreachable from `save_seen` output)
are normalized to `""` here. -/
def tsField (kvs : List (String × Json)) : String :=
  match kvs.lookup "ts" with
  | some (.str s) => s
  | _ => ""

/-- Normalization of one history value (`load_seen` lines 72-79). -/
def normalizeValue (v : Json) : SeenEntry :=
  match v with
  | .obj kvs =>
    { likes := safe_int ((kvs.lookup "likes").getD (.num 0)) 0
      comments := safe_int ((kvs.lookup "comments").getD (.num 0)) 0
      ts := tsField kvs }
  | _ => { likes := 0, comments := 0, ts := "" }

/-- `load_seen` (lines 48-80) applied to an already-decoded JSON document:
a legacy list of id strings migrates to zero-baseline entries; a dict is
normalized entry-wise, dropping falsy (empty) identity keys; anything else
yields the empty history. -/
def load_seen_json (j : Json) : List (String × SeenEntry) :=
  match j with
  | .arr xs =>
    xs.filterMap fun x =>
      match x with
      | .str nid => some (nid, { likes := 0, comments := 0, ts := "" })
      | _ => none
  | .obj kvs =>
    kvs.filterMap fun p =>
      if p.1 = "" then none
      else some (p.1, normalizeValue p.2)
  | _ => []

/-- `save_seen` followed by `load_seen` on the same file (the file itself is
a faithful JSON transport, `_atomic_write_json` lines 17-38). -/
def roundTrip (m : List (String × SeenEntry)) : List (String × SeenEntry) :=
  load_seen_json (save_seen_json m)

/-- `should_refetch` (`seen_set.py` lines 91-127).  The card supplies
`card.get("note_id", "")` and `card.get("likes_from_card", "0")`;
`parse_engagement` is the adapter's engagement parser; the float
multiplier (default 2.0) is a rational.  Returns
`(should_fetch, is_trending)`. -/
def should_refetch_with (noteId likesFromCard : String)
    (seenData : List (String × SeenEntry)) (parse : String → ℤ)
    (likesMultiplier : ℚ) (likesAbsThreshold : ℤ) : Bool × Bool :=
  match seenData.lookup noteId with
  | none => (true, false)
  | some old =>
    let oldLikes := old.likes
    let newLikes := parse likesFromCard
    if oldLikes = 0 then (false, false)
    else if (newLikes : ℚ) ≥ (oldLikes : ℚ) * likesMultiplier ∨
        newLikes - oldLikes ≥ likesAbsThreshold then (true, true)
    else (false, false)

/-- `should_refetch` with the default `likes_multiplier=2.0`,
`likes_abs_threshold=50`. -/
def should_refetch (noteId likesFromCard : String)
    (seenData : List (String × SeenEntry)) (parse : String → ℤ) : Bool × Bool :=
  should_refetch_with noteId likesFromCard seenData parse 2 50

end Seen

/-! ## Candidate cards and `filter_cards` (`filtering/card_filter.py`)

A `Card` models the card dict fields that the core reads.  `Option` fields
model possibly-missing dict keys (`card.get(k)` is `none` when absent).
`trending`/`skipDetail` model the `_trending`/`_skip_detail` marker keys
(absent ⇔ `false`, matching Python truthiness of a missing key). -/

structure Card where
  noteId : Option String := none
  url : Option String := none
  title : Option String := none
  user : Option String := none
  likesFromCard : Option String := none
  timeText : Option String := none
  trending : Bool := false
  skipDetail : Bool := false
deriving DecidableEq, Repr

/-- `filter_cards` (`card_filter.py` lines 9-40).  The Python function
mutates `session_seen` in place; here the updated set is returned as the
fourth component.  Returns `(fetch_cards, skipped_cards, n_skipped,
session_seen')`. -/
def filter_cards (cards : List Card) (sessionSeen : List String)
    (seenData : Option (List (String × Seen.SeenEntry))) (parse : String → ℤ) :
    List Card × List Card × ℕ × List String :=
  match cards with
  | [] => ([], [], 0, sessionSeen)
  | c :: rest =>
    match c.noteId with
    | none => filter_cards rest sessionSeen seenData parse
    | some nid =>
      if nid = "" ∨ sessionSeen.contains nid then
        filter_cards rest sessionSeen seenData parse
      else
        match seenData with
        | some sd =>
          if (Seen.should_refetch nid (c.likesFromCard.getD "0") sd parse).1 then
            ({ c with trending :=
                (Seen.should_refetch nid (c.likesFromCard.getD "0") sd parse).2 } ::
                (filter_cards rest sessionSeen seenData parse).1,
             (filter_cards rest sessionSeen seenData parse).2.1,
             (filter_cards rest sessionSeen seenData parse).2.2.1,
             (filter_cards rest sessionSeen seenData parse).2.2.2)
          else
            ((filter_cards rest (nid :: sessionSeen) seenData parse).1,
             { c with
                trending :=
                  (Seen.should_refetch nid (c.likesFromCard.getD "0") sd parse).2,
                skipDetail := true } ::
               (filter_cards rest (nid :: sessionSeen) seenData parse).2.1,
             (filter_cards rest (nid :: sessionSeen) seenData parse).2.2.1 + 1,
             (filter_cards rest (nid :: sessionSeen) seenData parse).2.2.2)
        | none =>
          (c :: (filter_cards rest sessionSeen seenData parse).1,
           (filter_cards rest sessionSeen seenData parse).2.1,
           (filter_cards rest sessionSeen seenData parse).2.2.1,
           (filter_cards rest sessionSeen seenData parse).2.2.2)

/-! ## Passive tap (`engine/passive_tap.py`)

`PassiveTap` keeps three Python dicts: `_feed_data : note_id → parsed dict`,
`_comment_data : note_id → [comments]`, `_timestamps : note_id → capture
time`.  Dicts are modelled as insertion-ordered association lists (CPython
3.7+): writing an existing key keeps its position, a new key appends at the
end, `next(iter(d))` is the head.  `time.monotonic()` values are the `now`
field of each event. -/

namespace Tap

/-- `d[k] = v` on an insertion-ordered dict. -/
def dictSet {α : Type} : List (String × α) → String → α → List (String × α)
  | [], k, v => [(k, v)]
  | (k', v') :: rest, k, v =>
    if k' = k then (k, v) :: rest else (k', v') :: dictSet rest k v

/-- `d.setdefault(k, v)`. -/
def dictSetdefault (ts : List (String × ℕ)) (k : String) (v : ℕ) :
    List (String × ℕ) :=
  if (ts.lookup k).isSome then ts else ts ++ [(k, v)]

/-- `self._timestamps.get(nid, 0)` — the `key` function of the `min` call
in `_evict_oldest` (line 195). -/
def tsKey (ts : List (String × ℕ)) (k : String) : ℕ := (ts.lookup k).getD 0

/-- Python's `min(...)` over a nonempty key sequence: left fold keeping the
first element attaining the minimum. -/
def minByTsAux (ts : List (String × ℕ)) : String → List String → String
  | best, [] => best
  | best, k :: rest =>
    if tsKey ts k < tsKey ts best then minByTsAux ts k rest
    else minByTsAux ts best rest

/-- `oldest_id` computed by `_evict_oldest` (lines 193-197): the
minimum-timestamp key among the dict's keys that are present in
`_timestamps`, with `default=next(iter(data_dict), None)`. -/
def evictChoice {α : Type} (d : List (String × α)) (ts : List (String × ℕ)) :
    Option String :=
  match (d.map Prod.fst).filter (fun k => (ts.lookup k).isSome) with
  | [] => d.head?.map Prod.fst
  | k :: rest => some (minByTsAux ts k rest)

/-- `_evict_oldest` (lines 189-199): pop `oldest_id` from the buffer dict
and from `_timestamps` (guarded by `if oldest_id:` — a falsy key pops
nothing). -/
def evictOldest {α : Type} (d : List (String × α)) (ts : List (String × ℕ)) :
    List (String × α) × List (String × ℕ) :=
  if d.isEmpty then (d, ts)
  else
    match evictChoice d ts with
    | none => (d, ts)
    | some k =>
      if k = "" then (d, ts)
      else (d.filter (fun p => p.1 != k), ts.filter (fun p => p.1 != k))

/-- `c.get("id")` of a comment dict, `none` for non-dicts/missing key. -/
def commentIdOf (c : Json) : Option Json :=
  match c with
  | .obj kvs => kvs.lookup "id"
  | _ => none

/-- The comment's id if it is truthy (`if c.get("id")`), else `none`. -/
def truthyId (c : Json) : Option Json :=
  match commentIdOf c with
  | some v => if v.falsy then none else some v
  | none => none

/-- The `for c in incoming` loop of `_merge_comments` (lines 223-231). -/
def mergeGo (seen : List Json) (merged : List Json) : List Json → List Json
  | [] => merged
  | c :: rest =>
    match c with
    | .obj kvs =>
      match truthyId (.obj kvs) with
      | some cid =>
        if seen.any (fun x => Json.beq x cid) then mergeGo seen merged rest
        else mergeGo (seen ++ [cid]) (merged ++ [.obj kvs]) rest
      | none => mergeGo seen (merged ++ [.obj kvs]) rest
    | _ => mergeGo seen merged rest

/-- `_merge_comments` (lines 218-232): keep existing dict comments, collect
their truthy ids, then append incoming dict comments whose id is new (or
missing/falsy). -/
def mergeComments (existing incoming : List Json) : List Json :=
  let merged0 := existing.filter (fun c => match c with | .obj _ => true | _ => false)
  mergeGo (merged0.filterMap truthyId) merged0 incoming

/-- The tap's mutable buffers. -/
structure TapState where
  feedData : List (String × Json)
  commentData : List (String × List Json)
  timestamps : List (String × ℕ)
deriving Repr

def initTap : TapState := ⟨[], [], []⟩

/-- One intercepted response that survived routing, the status-200 check and
the body-shape check of `_handle_response` (lines 150-158), abstracted to
the parser's `(data_type, parsed)` output plus the note id obtained from
`adapter.extract_note_id_from_api` / the URL-parameter fallback (lines
163-165; `""` when both fail) and the capture time `now`. -/
inductive TapEvent where
  | feed (noteId : String) (payload : Json) (now : ℕ)
  | comments (noteId : String) (payload : List Json) (now : ℕ)
deriving Repr

/-- `data_type == "feed"` branch of `_handle_response` (lines 172-178),
including the `if not parsed` / missing-note-id early returns. -/
def handleFeed (s : TapState) (noteId : String) (payload : Json) (now : ℕ) :
    TapState :=
  if payload.falsy then s
  else if noteId = "" then s
  else
    let fdts := if 100 ≤ s.feedData.length then evictOldest s.feedData s.timestamps
      else (s.feedData, s.timestamps)
    { feedData := dictSet fdts.1 noteId payload
      commentData := s.commentData
      timestamps := dictSet fdts.2 noteId now }

/-- `data_type == "comments"` branch of `_handle_response` (lines 179-185). -/
def handleComments (s : TapState) (noteId : String) (payload : List Json)
    (now : ℕ) : TapState :=
  if payload.isEmpty then s
  else if noteId = "" then s
  else
    let cdts := if 100 ≤ s.commentData.length then
        evictOldest s.commentData s.timestamps
      else (s.commentData, s.timestamps)
    { feedData := s.feedData
      commentData := dictSet cdts.1 noteId
        (mergeComments ((cdts.1.lookup noteId).getD []) payload)
      timestamps := dictSetdefault cdts.2 noteId now }

def tapStep (s : TapState) (ev : TapEvent) : TapState :=
  match ev with
  | .feed nid p now => handleFeed s nid p now
  | .comments nid p now => handleComments s nid p now

/-- Tap state after a sequence of intercepted responses on a fresh tap. -/
def runTap (events : List TapEvent) : TapState :=
  events.foldl tapStep initTap

/-- Distinct two-letter note ids for concrete runs. -/
def idChar (n : ℕ) : Char :=
  ['a', 'b', 'c', 'd', 'e', 'f', 'g', 'h', 'i', 'j'].getD n 'z'

def natName (n : ℕ) : String := String.mk [idChar (n / 10), idChar (n % 10)]

/-- A concrete response trace: comments for `"A"` captured at time 1, then
comments for 99 further ids at times 2..100 (filling the comment buffer to
its cap of 100), then a *feed* response for `"A"` at time 101 (which
overwrites the shared timestamp of `"A"` to 101), then one more comments
response at time 102, which overflows the comment buffer. -/
def cexEvents : List TapEvent :=
  [.comments "A" [Json.null] 1] ++
    ((List.range 99).map fun i => .comments (natName i) [Json.null] (i + 2)) ++
    [.feed "A" (.bool true) 101, .comments "ZZ" [Json.null] 102]

/-! ### `wait_for` (`passive_tap.py` lines 89-137)

Wall-clock polling is modelled by the sequence of buffer snapshots the loop
observes at its in-deadline poll ticks (`ticks`), plus the snapshot of the
final post-deadline check (`fin`).  A `page.wait_for_timeout` failure
(page closed) breaks out of the loop early and is therefore modelled as a
truncated tick list.  The `elapsed` field (pure timing telemetry) is not
modelled. -/

/-- One observation of the two buffers for the requested note id:
`get_feed(note_id)` and `get_comments(note_id)`. -/
structure TapView where
  feed : Option Json
  comments : List Json
deriving Repr

/-- `WaitResult` (lines 24-30) without the `elapsed` timing field. -/
structure WaitResult where
  feed : Option Json
  comments : List Json
  timedOut : Bool
deriving Repr

/-- `feed = self.get_feed(note_id) if need_feed else None` (line 110). -/
def maskedFeed (needFeed : Bool) (v : TapView) : Option Json :=
  if needFeed then v.feed else none

/-- `comments = self.get_comments(note_id) if need_comments else []`. -/
def maskedComments (needComments : Bool) (v : TapView) : List Json :=
  if needComments then v.comments else []

/-- `feed_ok and comments_ok` (lines 112-114). -/
def condMet (needFeed needComments : Bool) (v : TapView) : Bool :=
  (!needFeed || (maskedFeed needFeed v).isSome) &&
    (!needComments || decide (0 < (maskedComments needComments v).length))

/-- `wait_for` (lines 89-137): return at the first in-deadline poll tick
whose observation satisfies all requested conditions with
`timed_out=False`; otherwise perform the final post-deadline read `fin`
and return it with `timed_out=True`. -/
def wait_for (needFeed needComments : Bool) :
    List TapView → TapView → WaitResult
  | [], fin => ⟨maskedFeed needFeed fin, maskedComments needComments fin, true⟩
  | v :: rest, fin =>
    if condMet needFeed needComments v then
      ⟨maskedFeed needFeed v, maskedComments needComments v, false⟩
    else wait_for needFeed needComments rest fin

end Tap

/-! ## Hybrid fetch strategy (`engine/hybrid.py`)

Adapter and page operations can raise arbitrary exceptions; each call site
is modelled as an `Except Exc`-valued oracle supplied in a `FetchEnv`.
Pure waits (`human_sleep`, `time.sleep`) cannot raise and have no data
effect; the tap-polling loops' final observations are the `tapFeed` /
`tapComments` oracle fields (tap reads are exception-free dict reads).
The `try page.goto(...)/human_sleep except pass` recovery navigation and
the `try close_detail except pass` call in the exception handler swallow
their own errors and produce no value, so they are modelled as no-ops. -/

namespace Hybrid

/-- A raised exception; `msg` models `str(e)`. -/
structure Exc where
  msg : String
deriving DecidableEq, Repr

def startsWithChars : List Char → List Char → Bool
  | [], _ => true
  | _ :: _, [] => false
  | a :: as, b :: bs => a == b && startsWithChars as bs

def hasSubChars (needle : List Char) : List Char → Bool
  | [] => startsWithChars needle []
  | b :: bs => startsWithChars needle (b :: bs) || hasSubChars needle bs

/-- Python `needle in hay` on strings (used for `"Timeout" in str(e)`,
hybrid.py line 159). -/
def strContains (hay needle : String) : Bool := hasSubChars needle.data hay.data

/-- The post dict fields read or written by the hybrid engine.  A feed
payload delivered by the tap is modelled by the same shape (the engine
reads exactly these fields from it).  `Option String` engagement fields
model possibly-missing dict keys. -/
structure Post where
  noteId : String := ""
  url : String := ""
  title : String := ""
  content : String := ""
  user : String := ""
  likes : Option String := none
  comments : Option String := none
  collects : Option String := none
  tags : List String := []
  date : String := ""
  topComments : List Json := []
  screenshot : Option String := none
  videoUrl : String := ""
  coverUrl : String := ""
  cardOnly : Bool := false
  cardOnlyReason : Option String := none
  dataSource : String := ""
  trending : Bool := false
deriving Repr

/-- The dict returned by `adapter.extract_detail` (fields the engine
reads). -/
structure DomData where
  title : Option String := none
  content : Option String := none
  user : Option String := none
  likes : Option String := none
  comments : Option String := none
  collects : Option String := none
  tags : List String := []
  date : Option String := none
  videoUrl : Option String := none
deriving Repr

/-- Python `x or ...` on an optional string: keep `x` only if truthy. -/
def truthyStr : Option String → Option String
  | some s => if s = "" then none else some s
  | none => none

/-- The dict literal of `build_post_from_card` (hybrid.py lines 22-34)
with the url already resolved. -/
def postFromCardWithUrl (card : Card) (url : String) : Post :=
  { noteId := card.noteId.getD ""
    url := url
    title := (truthyStr card.title).getD ""
    content := ""
    user := (truthyStr card.user).getD ""
    likes := some (card.likesFromCard.getD "0")
    comments := some "0"
    date := card.timeText.getD ""
    topComments := [] }

/-- `build_post_from_card(card, adapter)` with an infallible
`adapter.build_post_url` (as called by `strategy_hybrid`). -/
def build_post_from_card (card : Card) (buildPostUrl : String → String) : Post :=
  postFromCardWithUrl card
    ((truthyStr card.url).getD (buildPostUrl (card.noteId.getD "")))

/-- `build_post_from_card` with a fallible `adapter.build_post_url`
(line 26: the adapter call happens only when `card.get("url")` is falsy,
and its exception propagates to `build_post_from_card`'s caller). -/
def build_post_from_cardE (card : Card) (bu : String → Except Exc String) :
    Except Exc Post :=
  match truthyStr card.url with
  | some u => .ok (postFromCardWithUrl card u)
  | none => (bu (card.noteId.getD "")).map (postFromCardWithUrl card)

/-- One call's worth of adapter/page behaviour for
`_fetch_post_detail_hybrid`, one oracle per call site (each site is
reached at most once per invocation).  `hasCaptchaH` is the *unguarded*
`adapter.has_captcha(page)` call on line 145, inside the `except` handler. -/
structure FetchEnv where
  openDetail : Except Exc Bool
  hasCaptcha1 : Except Exc Bool
  dismissCaptcha : Except Exc Unit
  hasCaptcha2 : Except Exc Bool
  waitForDetail : Except Exc Bool
  tapFeed : Option Post
  tapComments : List Json
  extractDetail : Except Exc DomData
  extractComments : Except Exc (List Json)
  takeScreenshot : Except Exc String
  closeDetail : Except Exc Unit
  buildPostUrl : String → Except Exc String
  hasCaptchaH : Except Exc Bool

/-- `post.get(field) in ("0", "", None)` (line 113). -/
def isZeroEmpty (v : Option String) : Bool :=
  v == some "0" || v == some "" || v == none

/-- The `for field in ("likes", "comments", "collects")` merge loop
(lines 112-114): prefer the DOM value when the tap value is zero/empty/
absent and the DOM value is truthy. -/
def mergeEngagement (post : Post) (dom : DomData) : Post :=
  let post1 := if isZeroEmpty post.likes ∧ (truthyStr dom.likes).isSome
    then { post with likes := dom.likes } else post
  let post2 := if isZeroEmpty post1.comments ∧ (truthyStr dom.comments).isSome
    then { post1 with comments := dom.comments } else post1
  if isZeroEmpty post2.collects ∧ (truthyStr dom.collects).isSome
    then { post2 with collects := dom.collects } else post2

/-- The body of the `try:` block of `_fetch_post_detail_hybrid`
(hybrid.py lines 49-142). -/
def fetchBody (nid : String) (card : Card) (env : FetchEnv) (maxComments : ℕ) :
    Except Exc (Post × Bool) := do
  let opened ← env.openDetail
  if !opened then
    let post ← build_post_from_cardE card env.buildPostUrl
    return ({ post with
      cardOnly := true,
      cardOnlyReason := some "link_not_found" }, false)
  let c1 ← env.hasCaptcha1
  let captcha ←
    if c1 then do
      let _ ← env.dismissCaptcha
      env.hasCaptcha2
    else pure false
  let detailLoaded ← env.waitForDetail
  let feed := env.tapFeed
  let apiComments := env.tapComments
  let domData ← env.extractDetail
  let domComments ← if apiComments.isEmpty then env.extractComments else pure []
  let screenshotPath ← env.takeScreenshot
  let _ ← env.closeDetail
  match feed with
  | some f =>
    let p1 := if f.content = "" ∧ (truthyStr domData.content).isSome
      then { f with content := domData.content.getD "" } else f
    let p2 := { p1 with
      topComments := (if apiComments.isEmpty then domComments
        else apiComments).take maxComments }
    let p3 := if p2.coverUrl = "" then { p2 with screenshot := some screenshotPath }
      else p2
    let p4 := mergeEngagement p3 domData
    return ({ p4 with dataSource := "passive_api" }, captcha)
  | none =>
    let url ← match truthyStr card.url with
      | some u => pure u
      | none => env.buildPostUrl nid
    let post : Post :=
      { noteId := nid
        url := url
        title := (truthyStr card.title).getD (domData.title.getD "")
        content := domData.content.getD ""
        user := (truthyStr card.user).getD (domData.user.getD "")
        likes := some ((truthyStr domData.likes).getD (card.likesFromCard.getD "0"))
        comments := some (domData.comments.getD "0")
        collects := some (domData.collects.getD "0")
        tags := domData.tags
        date := (truthyStr domData.date).getD (card.timeText.getD "")
        topComments :=
          (if apiComments.isEmpty then domComments else apiComments).take maxComments
        screenshot := some screenshotPath
        videoUrl := domData.videoUrl.getD ""
        dataSource := "dom_fallback" }
    let post := if post.content = "" then
        { post with
          cardOnly := true,
          cardOnlyReason :=
            some (if detailLoaded then "empty_content" else "modal_timeout") }
      else post
    return (post, captcha)

/-- `_fetch_post_detail_hybrid` (hybrid.py lines 37-161).
`card["note_id"]` on line 45 is evaluated *before* the `try:` block, so a
card without the key raises an uncaught `KeyError`.  In the `except`
handler (lines 144-161), `adapter.has_captcha(page)` (line 145) and the
`build_post_from_card` → `adapter.build_post_url` call (line 157) are
unguarded: their exceptions propagate. -/
def fetch_post_detail_hybrid (card : Card) (env : FetchEnv) (maxComments : ℕ) :
    Except Exc (Post × Bool) :=
  match card.noteId with
  | none => .error { msg := "KeyError: note_id" }
  | some nid =>
    match fetchBody nid card env maxComments with
    | .ok r => .ok r
    | .error e =>
      match env.hasCaptchaH with
      | .error e2 => .error e2
      | .ok captcha =>
        match build_post_from_cardE card env.buildPostUrl with
        | .error e3 => .error e3
        | .ok post =>
          let reason := if captcha then ""
            else if strContains e.msg "Timeout" then "modal_timeout"
            else "empty_content"
          .ok ({ post with cardOnly := true, cardOnlyReason := some reason },
            captcha)

/-! ### Per-candidate session step of `strategy_hybrid`
(hybrid.py lines 249-411, state only)

The session state consists of `captcha_mode`, `consecutive_captchas`,
`consecutive_failures` and the health monitor's retained event window.
Telemetry, screenshots, the posts list and the session-seen set do not
feed back into this state and are not modelled; the per-card fetch result
(`_fetch_post_detail_hybrid`'s return value) and `adapter.
has_auth_evidence(page)` are inputs. -/

structure SessState where
  captchaMode : Bool
  consecutiveCaptchas : ℕ
  consecutiveFailures : ℕ
  healthEvents : List String
deriving Repr

/-- The state at the top of `strategy_hybrid` (lines 180-190). -/
def initSess : SessState :=
  { captchaMode := false, consecutiveCaptchas := 0, consecutiveFailures := 0,
    healthEvents := [] }

/-- Everything the per-card loop body consumes for one candidate:
the card, the `(post, is_captcha)` result the detail fetch *would* return
(consulted only when a fetch actually happens), whether
`round(elapsed, 1) == 0.0`, and `adapter.has_auth_evidence(page)`. -/
structure CardInput where
  card : Card
  fetchResult : Post × Bool
  instantElapsed : Bool
  authEvidence : Bool

/-- `health.record(e)` on the session state. -/
def recordHealth (s : SessState) (e : String) : SessState :=
  { s with healthEvents := Health.recordEvent 20 s.healthEvents e }

/-- Lines 349-355: after 5 consecutive failures consult the auth-evidence
check and record `auth_expired` or another `empty`. -/
def postFailureCheck (s : SessState) (authEvidence : Bool) : SessState :=
  if 5 ≤ s.consecutiveFailures then
    recordHealth s (if authEvidence then "auth_expired" else "empty")
  else s

/-- Lines 357-359: tag the post when the card was marked trending. -/
def withTrending (card : Card) (post : Post) : Post :=
  if card.trending then { post with trending := true } else post

/-- One iteration of the `for i, card in enumerate(fetch_cards)` body
(lines 281-355), producing the next session state and the post appended to
`all_posts`. -/
def cardStep (bu : String → String) (s : SessState) (inp : CardInput) :
    SessState × Post :=
  if s.captchaMode || inp.card.skipDetail then
    let post := { build_post_from_card inp.card bu with
      cardOnly := true,
      cardOnlyReason := some (if inp.card.skipDetail then "skipped" else "captcha") }
    let s1 := if s.captchaMode && !inp.card.skipDetail then
        recordHealth { s with consecutiveFailures := s.consecutiveFailures + 1 }
          "captcha"
      else s
    (postFailureCheck s1 inp.authEvidence, withTrending inp.card post)
  else
    let post0 := inp.fetchResult.1
    if inp.fetchResult.2 then
      let cc := s.consecutiveCaptchas + 1
      let s1 := recordHealth { s with
        consecutiveCaptchas := cc,
        consecutiveFailures := s.consecutiveFailures + 1 } "captcha"
      let post := { post0 with cardOnly := true, cardOnlyReason := some "captcha" }
      let s2 := if 2 ≤ cc then { s1 with captchaMode := true } else s1
      (postFailureCheck s2 inp.authEvidence, withTrending inp.card post)
    else if post0.content = "" ∧ post0.dataSource ≠ "passive_api" then
      let failReason := match post0.cardOnlyReason with
        | some r => if r = "" then "empty_content" else r
        | none => "empty_content"
      let instantFail := inp.instantElapsed &&
        (failReason == "link_not_found" || failReason == "modal_timeout")
      let post := { post0 with cardOnly := true, cardOnlyReason := some failReason }
      let s1 := if instantFail then
          recordHealth { s with consecutiveCaptchas := 0 } "empty"
        else
          recordHealth { s with
            consecutiveCaptchas := 0,
            consecutiveFailures := s.consecutiveFailures + 1 } "empty"
      (postFailureCheck s1 inp.authEvidence, withTrending inp.card post)
    else
      let s1 := recordHealth { s with
        consecutiveCaptchas := 0,
        consecutiveFailures := 0 } "ok"
      (postFailureCheck s1 inp.authEvidence, withTrending inp.card post0)

/-- The per-card loop over a list of candidate inputs, collecting the
appended posts. -/
def runCards (bu : String → String) (s : SessState) :
    List CardInput → SessState × List Post
  | [] => (s, [])
  | inp :: rest =>
    let r := cardStep bu s inp
    let r2 := runCards bu r.1 rest
    (r2.1, r.2 :: r2.2)

/-! ### Wait-kind traces (for the tap-polling waits)

Effectful waits are modelled by the kind of primitive each loop iteration
invokes. -/

/-- The two wait primitives appearing in the per-candidate fetch path. -/
inductive WaitAction where
  /-- `time.sleep(seconds)` — blocks without processing the host page's
  event loop; Playwright response callbacks cannot fire during it. -/
  | plainSleep (seconds : ℚ)
  /-- `page.wait_for_timeout(ms)` — yields to Playwright's event loop. -/
  | hostYield (ms : ℕ)
deriving DecidableEq, Repr

/-- Waits performed by the first tap-polling loop of
`_fetch_post_detail_hybrid` (hybrid.py lines 76-83) over `emptyTicks`
iterations in which the tap has no data: each iteration executes
`time.sleep(0.1)`. -/
def hybridTapPollWaits (emptyTicks : ℕ) : List WaitAction :=
  List.replicate emptyTicks (.plainSleep (1/10))

/-- Waits performed by the comments follow-up polling loop
(hybrid.py lines 84-88): also `time.sleep(0.1)` per iteration. -/
def hybridCommentsPollWaits (emptyTicks : ℕ) : List WaitAction :=
  List.replicate emptyTicks (.plainSleep (1/10))

/-- Waits performed by `PassiveTap.wait_for` (passive_tap.py lines
121-124): each unsatisfied poll tick yields via
`page.wait_for_timeout(min(poll_interval, max(remaining_ms, 1)))`. -/
def waitForWaits (ticksMs : List ℕ) : List WaitAction :=
  ticksMs.map .hostYield

/-- A concrete card with an identity and a URL. -/
def cardN : Card := { noteId := some "n1", url := some "u" }

/-- An environment in which `adapter.open_detail` raises and the
`adapter.has_captcha` call in the exception handler *also* raises
(a crashed/detached page makes every adapter page access raise). -/
def envHandlerRaises : FetchEnv :=
  { openDetail := .error ⟨"open_detail: page crashed"⟩
    hasCaptcha1 := .ok false
    dismissCaptcha := .ok ()
    hasCaptcha2 := .ok false
    waitForDetail := .ok true
    tapFeed := none
    tapComments := []
    extractDetail := .ok {}
    extractComments := .ok []
    takeScreenshot := .ok "s.png"
    closeDetail := .ok ()
    buildPostUrl := fun _ => .ok "u2"
    hasCaptchaH := .error ⟨"has_captcha: page crashed"⟩ }

/-- The same failing attempt but with a responsive overlay check in the
handler. -/
def envHandlerOk : FetchEnv :=
  { envHandlerRaises with hasCaptchaH := .ok false }

/-- A candidate whose fetch attempt classifies as CAPTCHA. -/
def inpCaptcha : CardInput :=
  { card := { noteId := some "c" }
    fetchResult := ({ noteId := "c" }, true)
    instantElapsed := false
    authEvidence := false }

/-- A candidate under maximally favorable conditions: its fetch (were it
performed) would succeed with non-empty content and no CAPTCHA, and there
is no auth-expiry evidence. -/
def inpGood : CardInput :=
  { card := { noteId := some "g" }
    fetchResult :=
      ({ noteId := "g", content := "hello", dataSource := "dom_fallback" }, false)
    instantElapsed := false
    authEvidence := false }

end Hybrid

/-! ## Lemmas and claim theorems -/

namespace Health

lemma recency_pos (n i : ℕ) : 0 < recency n i := by
  unfold recency; split <;> norm_num

lemma totalPossible_pos {es : List String} (h : es ≠ []) : 0 < totalPossible es := by
  unfold totalPossible
  apply Finset.sum_pos
  · exact fun i _ => recency_pos _ _
  · simpa [Finset.nonempty_range_iff, List.length_eq_zero] using h

lemma score_nonneg (es : List String) : 0 ≤ score es := by
  unfold score
  split
  · norm_num
  · split
    · norm_num
    · exact le_max_left 0 _

lemma score_le_one (es : List String) : score es ≤ 1 := by
  unfold score
  split
  · norm_num
  · split
    · norm_num
    · exact max_le (by norm_num) (min_le_left 1 _)

/-- On a window whose events all have the same weight `c`, the total weight
is `c` times the total possible weight. -/
lemma totalWeight_const {es : List String} {c : ℚ}
    (h : ∀ e ∈ es, weight e = c) :
    totalWeight es = c * totalPossible es := by
  unfold totalWeight totalPossible
  rw [Finset.mul_sum]
  apply Finset.sum_congr rfl
  intro i hi
  rw [Finset.mem_range] at hi
  rw [List.getD_eq_getElem es "" hi, h es[i] (es.getElem_mem hi)]

/-- Score of a nonempty constant-weight window: `(c + 1) / 2`, clamped. -/
lemma score_const {es : List String} {c : ℚ} (hne : es ≠ [])
    (h : ∀ e ∈ es, weight e = c) :
    score es = max 0 (min 1 ((c + 1) / 2)) := by
  have hp := totalPossible_pos hne
  unfold score
  rw [if_neg hne, if_neg (by positivity), totalWeight_const h]
  have : (c * totalPossible es + totalPossible es) / (2 * totalPossible es)
      = (c + 1) / 2 := by
    field_simp
    ring
  rw [this]

lemma mem_recordEvent {w : ℕ} {es : List String} {e x : String}
    (h : x ∈ recordEvent w es e) : x ∈ es ∨ x = e := by
  unfold recordEvent at h
  split at h
  · have := List.drop_subset _ _ h
    simpa using this
  · simpa using h

lemma foldl_recordEvent_mem {x : String} :
    ∀ (es acc : List String), x ∈ es.foldl (recordEvent 20) acc → x ∈ acc ∨ x ∈ es := by
  intro es
  induction es with
  | nil => exact fun acc h => Or.inl h
  | cons e rest ih =>
    intro acc h
    rcases ih (recordEvent 20 acc e) h with h' | h'
    · rcases mem_recordEvent h' with h'' | h''
      · exact Or.inl h''
      · exact Or.inr (by simp [h''])
    · exact Or.inr (List.mem_cons_of_mem _ h')

lemma mem_windowOf {events : List String} {x : String}
    (h : x ∈ windowOf events) : x ∈ events := by
  rcases foldl_recordEvent_mem events [] h with h' | h'
  · simp at h'
  · exact h'

lemma recordEvent_ne_nil (es : List String) (e : String) :
    recordEvent 20 es e ≠ [] := by
  unfold recordEvent
  by_cases h : 20 < (es ++ [e]).length
  · rw [if_pos h]
    intro hc
    have hl := congrArg List.length hc
    rw [List.length_drop] at hl
    simp only [List.length_append, List.length_singleton, List.length_nil] at h hl
    omega
  · rw [if_neg h]
    simp

lemma foldl_recordEvent_ne_nil :
    ∀ (es acc : List String), acc ≠ [] → es.foldl (recordEvent 20) acc ≠ [] := by
  intro es
  induction es with
  | nil => exact fun _ h => h
  | cons e rest ih => exact fun acc _ => ih _ (recordEvent_ne_nil acc e)

lemma windowOf_ne_nil {events : List String} (h : events ≠ []) :
    windowOf events ≠ [] := by
  match events, h with
  | e :: rest, _ =>
    unfold windowOf
    simp only [List.foldl_cons]
    exact foldl_recordEvent_ne_nil rest _ (recordEvent_ne_nil [] e)

lemma recordEvent_eq_append {acc : List String} {e : String}
    (h : acc.length + 1 ≤ 20) : recordEvent 20 acc e = acc ++ [e] := by
  unfold recordEvent
  have hn : ¬ 20 < (acc ++ [e]).length := by
    simp only [List.length_append, List.length_singleton]
    omega
  rw [if_neg hn]

lemma foldl_recordEvent_append :
    ∀ (es acc : List String), acc.length + es.length ≤ 20 →
      es.foldl (recordEvent 20) acc = acc ++ es := by
  intro es
  induction es with
  | nil => intro acc _; simp
  | cons e rest ih =>
    intro acc h
    simp only [List.length_cons] at h
    simp only [List.foldl_cons]
    rw [recordEvent_eq_append (by omega)]
    rw [ih (acc ++ [e]) (by simp only [List.length_append, List.length_singleton]; omega)]
    simp

lemma windowOf_eq_self {events : List String} (h : events.length ≤ 20) :
    windowOf events = events := by
  unfold windowOf
  rw [foldl_recordEvent_append events [] (by simpa using h)]
  simp

end Health

/-- C2: for every sequence of recorded events, `HealthMonitor.score` lies in
[0, 1] (with score exactly 1.0 on an empty window); every nonempty all-`ok`
sequence scores ≥ 0.9; every all-`captcha` sequence of length ≥ 5 scores
< 0.6 and makes `should_backoff` true.  (`health.py` lines 31-58, 68-71.) -/
theorem C2_health_score_bounds :
    (∀ events : List String,
        0 ≤ Health.scoreSeq events ∧ Health.scoreSeq events ≤ 1) ∧
    Health.scoreSeq [] = 1 ∧
    (∀ events : List String, events ≠ [] → (∀ e ∈ events, e = "ok") →
        (9 : ℚ)/10 ≤ Health.scoreSeq events) ∧
    (∀ events : List String, 5 ≤ events.length → (∀ e ∈ events, e = "captcha") →
        Health.scoreSeq events < 3/5 ∧ Health.shouldBackoffSeq events = true) := by
  refine ⟨fun events => ⟨Health.score_nonneg _, Health.score_le_one _⟩, rfl, ?_, ?_⟩
  · intro events hne hok
    have hwne : Health.windowOf events ≠ [] := Health.windowOf_ne_nil hne
    have hconst : ∀ e ∈ Health.windowOf events, Health.weight e = 1 := by
      intro e he
      rw [hok e (Health.mem_windowOf he)]
      rfl
    unfold Health.scoreSeq
    rw [Health.score_const hwne hconst]
    norm_num
  · intro events hlen hcap
    have hne : events ≠ [] := by
      intro h
      rw [h] at hlen
      simp at hlen
    have hwne := Health.windowOf_ne_nil hne
    have hconst : ∀ e ∈ Health.windowOf events, Health.weight e = -(1/2) := by
      intro e he
      rw [hcap e (Health.mem_windowOf he)]
      rfl
    have hs : Health.scoreSeq events = 1/4 := by
      unfold Health.scoreSeq
      rw [Health.score_const hwne hconst]
      norm_num
    refine ⟨by rw [hs]; norm_num, ?_⟩
    unfold Health.shouldBackoffSeq Health.should_backoff
    rw [show Health.score (Health.windowOf events) = Health.scoreSeq events from rfl, hs]
    norm_num

/-- Witness for C2 at concrete inputs. -/
theorem C2_health_score_bounds_witness :
    (0 ≤ Health.scoreSeq ["ok"] ∧ Health.scoreSeq ["ok"] ≤ 1) ∧
    (9 : ℚ)/10 ≤ Health.scoreSeq ["ok", "ok", "ok"] ∧
    (Health.scoreSeq (List.replicate 5 "captcha") < 3/5 ∧
      Health.shouldBackoffSeq (List.replicate 5 "captcha") = true) :=
  ⟨C2_health_score_bounds.1 _,
   C2_health_score_bounds.2.2.1 _ (by decide) (by decide),
   C2_health_score_bounds.2.2.2 _ (by decide) (by decide)⟩

/-- C3 counterexample: recording 3 `auth_expired` events followed by 20 `ok`
events leaves `should_stop` false — the 20-event window has evicted all the
`auth_expired` events, so "regardless of what is recorded afterwards" fails. -/
theorem C3_should_stop_cex :
    Health.shouldStopSeq
      (List.replicate 3 "auth_expired" ++ List.replicate 20 "ok") = false := by
  have hw : Health.windowOf (List.replicate 3 "auth_expired" ++ List.replicate 20 "ok")
      = List.replicate 20 "ok" := by decide
  have hconst : ∀ e ∈ List.replicate 20 "ok", Health.weight e = 1 := by
    intro e he
    rw [List.eq_of_mem_replicate he]
    rfl
  have hs : Health.score (List.replicate 20 "ok") = 1 := by
    rw [Health.score_const (by decide) hconst]
    norm_num
  unfold Health.shouldStopSeq Health.should_stop
  rw [hw, hs]
  have h1 : Health.nAuth (List.replicate 20 "ok") = 0 := by
    simp [Health.nAuth, List.count_replicate]
  rw [h1]
  simp only [Bool.or_eq_false_iff, decide_eq_false_iff_not]
  constructor <;> norm_num

/-- C3 (amended): `should_stop` is true exactly when the *retained window*
contains ≥ 3 `auth_expired` events or the score is < 0.3; recording 3
`auth_expired` events guarantees `should_stop` only while all three are
still inside the 20-event window (in particular whenever at most 20 events
total have been recorded).  (`health.py` lines 60-66, window from line 24.) -/
theorem C3_should_stop_amended :
    (∀ events : List String,
        Health.shouldStopSeq events = true ↔
          (3 ≤ Health.nAuth (Health.windowOf events) ∨
            Health.scoreSeq events < 3/10)) ∧
    (∀ events : List String,
        3 ≤ (Health.windowOf events).count "auth_expired" →
          Health.shouldStopSeq events = true) ∧
    (∀ events : List String, events.length ≤ 20 →
        3 ≤ events.count "auth_expired" → Health.shouldStopSeq events = true) := by
  have key : ∀ events : List String,
      Health.shouldStopSeq events = true ↔
        (3 ≤ Health.nAuth (Health.windowOf events) ∨
          Health.scoreSeq events < 3/10) := by
    intro events
    unfold Health.shouldStopSeq Health.should_stop Health.scoreSeq
    simp
  refine ⟨key, ?_, ?_⟩
  · intro events h
    rw [key]
    exact Or.inl h
  · intro events hlen h
    rw [key]
    left
    unfold Health.nAuth
    rw [Health.windowOf_eq_self hlen]
    exact h

/-- Witness for C3's amended theorem at a concrete input. -/
theorem C3_should_stop_amended_witness :
    Health.shouldStopSeq (List.replicate 3 "auth_expired") = true :=
  C3_should_stop_amended.2.2 _ (by decide) (by decide)

/-- C4: the four cases of `should_refetch` (defaults 2.0 / 50):
unseen identity ⇒ (true, false); stored likes = 0 ⇒ (false, false);
nonzero baseline with a spike (new ≥ old·2 or new − old ≥ 50) ⇒
(true, true); nonzero baseline without a spike ⇒ (false, false). -/
theorem C4_should_refetch_cases
    (noteId likesFromCard : String)
    (seenData : List (String × Seen.SeenEntry)) (parse : String → ℤ) :
    (seenData.lookup noteId = none →
      Seen.should_refetch noteId likesFromCard seenData parse = (true, false)) ∧
    (∀ e, seenData.lookup noteId = some e → e.likes = 0 →
      Seen.should_refetch noteId likesFromCard seenData parse = (false, false)) ∧
    (∀ e, seenData.lookup noteId = some e → e.likes ≠ 0 →
      ((parse likesFromCard : ℚ) ≥ (e.likes : ℚ) * 2 ∨
        parse likesFromCard - e.likes ≥ 50) →
      Seen.should_refetch noteId likesFromCard seenData parse = (true, true)) ∧
    (∀ e, seenData.lookup noteId = some e → e.likes ≠ 0 →
      ¬((parse likesFromCard : ℚ) ≥ (e.likes : ℚ) * 2 ∨
        parse likesFromCard - e.likes ≥ 50) →
      Seen.should_refetch noteId likesFromCard seenData parse = (false, false)) := by
  unfold Seen.should_refetch Seen.should_refetch_with
  refine ⟨?_, ?_, ?_, ?_⟩
  · intro h
    rw [h]
  · intro e h hz
    rw [h]
    simp [hz]
  · intro e h hz hsp
    rw [h]
    simp only [if_neg hz, if_pos hsp]
  · intro e h hz hsp
    rw [h]
    simp only [if_neg hz, if_neg hsp]

/-- Witness for C4 at concrete inputs: identity `"a"` unseen in an empty
history, and a trending spike over baseline 10 with new likes 100. -/
theorem C4_should_refetch_cases_witness :
    Seen.should_refetch "a" "100" [] (fun _ => (100 : ℤ)) = (true, false) ∧
    Seen.should_refetch "a" "100" [("a", ⟨10, 0, ""⟩)] (fun _ => (100 : ℤ))
      = (true, true) := by
  constructor
  · exact (C4_should_refetch_cases "a" "100" [] _).1 rfl
  · exact (C4_should_refetch_cases "a" "100" [("a", ⟨10, 0, ""⟩)] _).2.2.1
      ⟨10, 0, ""⟩ rfl (by decide) (Or.inl (by norm_num))

namespace Seen

lemma normalizeValue_entry (e : SeenEntry) :
    normalizeValue (.obj [("likes", .num e.likes), ("comments", .num e.comments),
      ("ts", .str e.ts)]) = e := rfl

lemma roundTrip_eq_filter (m : List (String × SeenEntry)) :
    roundTrip m = m.filter (fun p => p.1 != "") := by
  induction m with
  | nil => rfl
  | cons p rest ih =>
    obtain ⟨nid, e⟩ := p
    have step : roundTrip ((nid, e) :: rest)
        = (if nid = "" then roundTrip rest else (nid, e) :: roundTrip rest) := by
      unfold roundTrip save_seen_json load_seen_json
      simp only [List.map_cons, List.filterMap_cons]
      by_cases h : nid = ""
      · simp [h]
      · simp [h, normalizeValue_entry]
    rw [step, List.filter_cons]
    by_cases h : nid = ""
    · simp [h, ih]
    · simp [h, ih]

lemma load_legacy (ids : List String) :
    load_seen_json (.arr (ids.map .str))
      = ids.map (fun s => (s, (⟨0, 0, ""⟩ : SeenEntry))) := by
  induction ids with
  | nil => rfl
  | cons i rest ih =>
    unfold load_seen_json
    unfold load_seen_json at ih
    simp only [List.map_cons, List.filterMap_cons]
    exact congrArg (List.cons _) ih

lemma lookup_const_map (c : SeenEntry) :
    ∀ (ids : List String) (nid : String), nid ∈ ids →
      (ids.map (fun s => (s, c))).lookup nid = some c := by
  intro ids
  induction ids with
  | nil =>
    intro nid h
    simp at h
  | cons i rest ih =>
    intro nid h
    rw [List.map_cons]
    by_cases he : nid = i
    · simp [List.lookup, he]
    · have hmem : nid ∈ rest := by
        rcases List.mem_cons.mp h with h' | h'
        · exact absurd h' he
        · exact h'
      have hbe : (nid == i) = false := by simp [he]
      simp [List.lookup, hbe, ih nid hmem]

end Seen

/-- C7 (amended): `save_seen` followed by `load_seen` reproduces every entry
(likes, comments, ts) exactly for every identity *that is a nonempty
string* — `load_seen` silently drops falsy identity keys (line 70-71) —
and a legacy array-of-identity-strings file loads with a zero-baseline
entry (likes = 0, comments = 0) for every listed identity. -/
theorem C7_roundtrip_amended :
    (∀ m : List (String × Seen.SeenEntry),
        Seen.roundTrip m = m.filter (fun p => p.1 != "")) ∧
    (∀ (ids : List String) (nid : String), nid ∈ ids →
        (Seen.load_seen_json (.arr (ids.map .str))).lookup nid
          = some ⟨0, 0, ""⟩) := by
  constructor
  · exact Seen.roundTrip_eq_filter
  · intro ids nid h
    rw [Seen.load_legacy]
    exact Seen.lookup_const_map _ ids nid h

/-- Witness for C7's amended theorem: a two-entry history (one empty
identity) and a two-identity legacy file. -/
theorem C7_roundtrip_amended_witness :
    Seen.roundTrip [("a", ⟨1, 2, "x"⟩), ("", ⟨9, 9, "z"⟩)] = [("a", ⟨1, 2, "x"⟩)] ∧
    (Seen.load_seen_json (.arr (["a", "b"].map .str))).lookup "a"
      = some ⟨0, 0, ""⟩ := by
  constructor
  · rw [C7_roundtrip_amended.1]
    rfl
  · exact C7_roundtrip_amended.2 ["a", "b"] "a" (by decide)

/-- C7 counterexample: the claim quantifies over *every* identity, but an
entry stored under the empty-string identity is well-formed
(`{likes: 3, comments: 4, ts: "t"}`), survives `save_seen`, and is then
dropped by `load_seen`'s `if not nid: continue` — the round-trip loses it. -/
theorem C7_roundtrip_cex :
    Seen.roundTrip [("", ⟨3, 4, "t"⟩)] = [] := rfl

/-- C10: `filter_cards` silently discards cards whose `note_id` is missing,
empty, or already in the session-seen set (they appear in neither output
list and do not count toward `n_skipped`), and the skipped list surfaces
exactly the history-based skips: `n_skipped` equals its length and each of
its members is a `_skip_detail`-marked card that `should_refetch` declined. -/
theorem C10_filter_cards_discard :
    (∀ (c : Card) (rest : List Card) (ss : List String)
        (sd : Option (List (String × Seen.SeenEntry))) (parse : String → ℤ),
        c.noteId = none →
        filter_cards (c :: rest) ss sd parse = filter_cards rest ss sd parse) ∧
    (∀ (c : Card) (rest : List Card) (ss : List String)
        (sd : Option (List (String × Seen.SeenEntry))) (parse : String → ℤ),
        c.noteId = some "" →
        filter_cards (c :: rest) ss sd parse = filter_cards rest ss sd parse) ∧
    (∀ (c : Card) (rest : List Card) (ss : List String)
        (sd : Option (List (String × Seen.SeenEntry))) (parse : String → ℤ)
        (nid : String), c.noteId = some nid → ss.contains nid = true →
        filter_cards (c :: rest) ss sd parse = filter_cards rest ss sd parse) ∧
    (∀ (cards : List Card) (ss : List String)
        (sd : List (String × Seen.SeenEntry)) (parse : String → ℤ),
        (filter_cards cards ss (some sd) parse).2.2.1
          = (filter_cards cards ss (some sd) parse).2.1.length ∧
        ∀ c' ∈ (filter_cards cards ss (some sd) parse).2.1,
          c'.skipDetail = true ∧
          (Seen.should_refetch (c'.noteId.getD "") (c'.likesFromCard.getD "0")
            sd parse).1 = false) := by
  refine ⟨?_, ?_, ?_, ?_⟩
  · intro c rest ss sd parse h
    rw [filter_cards, h]
  · intro c rest ss sd parse h
    rw [filter_cards, h]
    simp
  · intro c rest ss sd parse nid h hss
    simp only [filter_cards, h, hss, or_true, if_true]
  · intro cards
    induction cards with
    | nil =>
      intro ss sd parse
      exact ⟨rfl, by simp [filter_cards]⟩
    | cons c rest ih =>
      intro ss sd parse
      rcases hnid : c.noteId with _ | nid
      · simp only [filter_cards, hnid]
        exact ih ss sd parse
      · simp only [filter_cards, hnid]
        by_cases hseen : nid = "" ∨ ss.contains nid = true
        · rw [if_pos hseen]
          exact ih ss sd parse
        · rw [if_neg hseen]
          by_cases hf : (Seen.should_refetch nid (c.likesFromCard.getD "0") sd parse).1 = true
          · rw [if_pos hf]
            exact ih ss sd parse
          · rw [if_neg hf]
            refine ⟨?_, ?_⟩
            · show (filter_cards rest (nid :: ss) (some sd) parse).2.2.1 + 1 = _
              simp only [List.length_cons, (ih (nid :: ss) sd parse).1]
            · intro c' hc'
              rcases List.mem_cons.mp hc' with hc' | hc'
              · subst hc'
                refine ⟨rfl, ?_⟩
                simpa using hf
              · exact (ih (nid :: ss) sd parse).2 c' hc'

/-- Witness for C10 at concrete inputs: a card with no `note_id` is dropped,
and a history-skipped card is surfaced with `n_skipped = 1`. -/
theorem C10_filter_cards_discard_witness :
    filter_cards [{ noteId := none }] [] none (fun _ => 0)
      = filter_cards [] [] none (fun _ => 0) ∧
    (filter_cards [{ noteId := some "a", likesFromCard := some "5" }] []
        (some [("a", ⟨0, 0, ""⟩)]) (fun _ => (5 : ℤ))).2.2.1
      = (filter_cards [{ noteId := some "a", likesFromCard := some "5" }] []
        (some [("a", ⟨0, 0, ""⟩)]) (fun _ => (5 : ℤ))).2.1.length := by
  constructor
  · exact C10_filter_cards_discard.1 _ _ _ _ _ rfl
  · exact (C10_filter_cards_discard.2.2.2 _ _ _ _).1

namespace Tap

lemma length_dictSet {α : Type} (k : String) (v : α) :
    ∀ l : List (String × α), (dictSet l k v).length ≤ l.length + 1 := by
  intro l
  induction l with
  | nil => simp [dictSet]
  | cons p rest ih =>
    obtain ⟨k', v'⟩ := p
    unfold dictSet
    by_cases h : k' = k
    · rw [if_pos h]
      simp
    · rw [if_neg h]
      simpa using Nat.succ_le_succ ih

lemma mem_dictSet {α : Type} (k : String) (v : α) :
    ∀ (l : List (String × α)) (p : String × α),
      p ∈ dictSet l k v → p.1 = k ∨ p ∈ l := by
  intro l
  induction l with
  | nil =>
    intro p h
    simp [dictSet] at h
    simp [h]
  | cons q rest ih =>
    obtain ⟨k', v'⟩ := q
    intro p h
    unfold dictSet at h
    by_cases hk : k' = k
    · rw [if_pos hk] at h
      rcases List.mem_cons.mp h with h' | h'
      · simp [h']
      · exact Or.inr (List.mem_cons_of_mem _ h')
    · rw [if_neg hk] at h
      rcases List.mem_cons.mp h with h' | h'
      · exact Or.inr (by simp [h'])
      · rcases ih p h' with h'' | h''
        · exact Or.inl h''
        · exact Or.inr (List.mem_cons_of_mem _ h'')

lemma length_filter_lt_of_mem {α : Type} (p : α → Bool) :
    ∀ (l : List α) (x : α), x ∈ l → p x = false →
      (l.filter p).length < l.length := by
  intro l
  induction l with
  | nil =>
    intro x h
    simp at h
  | cons a rest ih =>
    intro x hx hpx
    rw [List.filter_cons]
    by_cases h : p a = true
    · rw [if_pos h]
      rcases List.mem_cons.mp hx with h' | h'
      · subst h'
        rw [hpx] at h
        cases h
      · simpa using ih x h' hpx
    · rw [if_neg h]
      have := List.length_filter_le p rest
      simp only [List.length_cons]
      omega

lemma minByTsAux_mem (ts : List (String × ℕ)) :
    ∀ (l : List String) (b : String), minByTsAux ts b l ∈ b :: l := by
  intro l
  induction l with
  | nil =>
    intro b
    simp [minByTsAux]
  | cons k rest ih =>
    intro b
    unfold minByTsAux
    by_cases h : tsKey ts k < tsKey ts b
    · rw [if_pos h]
      rcases List.mem_cons.mp (ih k) with h' | h'
      · simp [h']
      · simp [List.mem_cons_of_mem, h']
    · rw [if_neg h]
      rcases List.mem_cons.mp (ih b) with h' | h'
      · simp [h']
      · simp only [List.mem_cons]
        exact Or.inr (Or.inr h')

lemma minByTsAux_le (ts : List (String × ℕ)) :
    ∀ (l : List String) (b : String),
      tsKey ts (minByTsAux ts b l) ≤ tsKey ts b ∧
      ∀ x ∈ l, tsKey ts (minByTsAux ts b l) ≤ tsKey ts x := by
  intro l
  induction l with
  | nil =>
    intro b
    exact ⟨le_refl _, by simp⟩
  | cons k rest ih =>
    intro b
    unfold minByTsAux
    by_cases h : tsKey ts k < tsKey ts b
    · rw [if_pos h]
      obtain ⟨h1, h2⟩ := ih k
      refine ⟨le_trans h1 (le_of_lt h), ?_⟩
      intro x hx
      rcases List.mem_cons.mp hx with hx | hx
      · subst hx
        exact h1
      · exact h2 x hx
    · rw [if_neg h]
      obtain ⟨h1, h2⟩ := ih b
      refine ⟨h1, ?_⟩
      intro x hx
      rcases List.mem_cons.mp hx with hx | hx
      · subst hx
        exact le_trans h1 (not_lt.mp h)
      · exact h2 x hx

/-- Specification of `oldest_id`: it is a key of the buffer, and whenever
some buffer key has a stored timestamp it is a timestamped key of minimal
stored timestamp (first-found on ties). -/
lemma evictChoice_spec {α : Type} (d : List (String × α)) (ts : List (String × ℕ))
    (hne : d ≠ []) :
    ∃ k, evictChoice d ts = some k ∧ k ∈ d.map Prod.fst ∧
      ∀ p ∈ d, (ts.lookup p.1).isSome = true →
        (ts.lookup k).isSome = true ∧ tsKey ts k ≤ tsKey ts p.1 := by
  unfold evictChoice
  match hfil : (d.map Prod.fst).filter (fun k => (ts.lookup k).isSome) with
  | [] =>
    rcases d with _ | ⟨q, rest⟩
    · exact absurd rfl hne
    · refine ⟨q.1, rfl, by simp, ?_⟩
      intro p hp hts
      exfalso
      have hmem : p.1 ∈ ((q :: rest).map Prod.fst).filter
          (fun k => (ts.lookup k).isSome) :=
        List.mem_filter.mpr ⟨List.mem_map_of_mem _ hp, hts⟩
      rw [hfil] at hmem
      simp at hmem
  | k :: krest =>
    refine ⟨minByTsAux ts k krest, rfl, ?_, ?_⟩
    · have hmem : minByTsAux ts k krest ∈ k :: krest := minByTsAux_mem ts krest k
      have : minByTsAux ts k krest ∈
          (d.map Prod.fst).filter (fun k => (ts.lookup k).isSome) := by
        rw [hfil]
        exact hmem
      exact (List.mem_filter.mp this).1
    · intro p hp hts
      have hpfil : p.1 ∈ k :: krest := by
        rw [← hfil]
        exact List.mem_filter.mpr ⟨List.mem_map_of_mem _ hp, hts⟩
      have hmfil : minByTsAux ts k krest ∈
          (d.map Prod.fst).filter (fun k => (ts.lookup k).isSome) := by
        rw [hfil]
        exact minByTsAux_mem ts krest k
      refine ⟨(List.mem_filter.mp hmfil).2, ?_⟩
      obtain ⟨h1, h2⟩ := minByTsAux_le ts krest k
      rcases List.mem_cons.mp hpfil with hx | hx
      · rw [hx]
        exact h1
      · exact h2 p.1 hx

/-- A nonempty buffer with no empty-string keys shrinks strictly under
`_evict_oldest`, and eviction only removes entries. -/
lemma evictOldest_shrinks {α : Type} (d : List (String × α))
    (ts : List (String × ℕ)) (hne : d ≠ []) (hkeys : ∀ p ∈ d, p.1 ≠ "") :
    (evictOldest d ts).1.length < d.length ∧
      ∀ p ∈ (evictOldest d ts).1, p ∈ d := by
  obtain ⟨k, hk, hkmem, _⟩ := evictChoice_spec d ts hne
  obtain ⟨p0, hp0, hp0k⟩ := List.mem_map.mp hkmem
  have hkne : k ≠ "" := hp0k ▸ hkeys p0 hp0
  unfold evictOldest
  rw [if_neg (by simpa using hne), hk]
  dsimp only
  rw [if_neg hkne]
  constructor
  · exact length_filter_lt_of_mem _ d p0 hp0 (by simp [hp0k])
  · exact fun p hp => List.mem_of_mem_filter hp

/-- The buffer invariant: at most 100 entries, all keys nonempty. -/
def goodBuf {α : Type} (l : List (String × α)) : Prop :=
  l.length ≤ 100 ∧ ∀ p ∈ l, p.1 ≠ ""

lemma goodBuf_insert {α : Type} (l : List (String × α)) (ts : List (String × ℕ))
    (hl : goodBuf l) (k : String) (hk : k ≠ "") (v : α) :
    goodBuf (dictSet (if 100 ≤ l.length then evictOldest l ts else (l, ts)).1 k v) := by
  have h1 := hl.1
  by_cases hlen : 100 ≤ l.length
  · rw [if_pos hlen]
    have hne : l ≠ [] := by
      intro h
      rw [h] at hlen
      simp at hlen
    obtain ⟨hlt, hsub⟩ := evictOldest_shrinks l ts hne hl.2
    constructor
    · have h2 := length_dictSet k v (evictOldest l ts).1
      omega
    · intro p hp
      rcases mem_dictSet k v _ p hp with h | h
      · rw [h]
        exact hk
      · exact hl.2 p (hsub p h)
  · rw [if_neg hlen]
    dsimp only
    constructor
    · have h2 := length_dictSet k v l
      omega
    · intro p hp
      rcases mem_dictSet k v _ p hp with h | h
      · rw [h]
        exact hk
      · exact hl.2 p h

/-- The tap invariant: both buffers satisfy `goodBuf`. -/
def goodTap (s : TapState) : Prop := goodBuf s.feedData ∧ goodBuf s.commentData

lemma goodTap_step (s : TapState) (ev : TapEvent) (h : goodTap s) :
    goodTap (tapStep s ev) := by
  cases ev with
  | feed nid p now =>
    show goodTap (handleFeed s nid p now)
    unfold handleFeed
    by_cases hf : p.falsy = true
    · rw [if_pos hf]
      exact h
    · rw [if_neg hf]
      by_cases hn : nid = ""
      · rw [if_pos hn]
        exact h
      · rw [if_neg hn]
        exact ⟨goodBuf_insert s.feedData s.timestamps h.1 nid hn p, h.2⟩
  | comments nid p now =>
    show goodTap (handleComments s nid p now)
    unfold handleComments
    by_cases hf : p.isEmpty = true
    · rw [if_pos hf]
      exact h
    · rw [if_neg hf]
      by_cases hn : nid = ""
      · rw [if_pos hn]
        exact h
      · rw [if_neg hn]
        exact ⟨h.1, goodBuf_insert s.commentData s.timestamps h.2 nid hn _⟩

lemma goodTap_foldl : ∀ (events : List TapEvent) (s : TapState),
    goodTap s → goodTap (events.foldl tapStep s) := by
  intro events
  induction events with
  | nil => exact fun _ h => h
  | cons e rest ih => exact fun s h => ih _ (goodTap_step s e h)

lemma goodTap_runTap (events : List TapEvent) : goodTap (runTap events) :=
  goodTap_foldl events initTap
    ⟨⟨by simp [initTap], by simp [initTap]⟩, ⟨by simp [initTap], by simp [initTap]⟩⟩

end Tap

/-- C5 (amended): each tap buffer holds at most 100 entries at all times
(confirmed as stated); on overflow `_evict_oldest` removes a buffer entry
whose *currently stored* timestamp is minimal among the buffer's
timestamped keys (first-found on ties), falling back to the first-inserted
entry when no key has a stored timestamp.  Because the per-identity
timestamp map is shared between the feed and comment buffers — later feed
captures overwrite it, and eviction from one buffer drops it for the other
— the evicted entry need not be the one whose data was captured earliest
(see the counterexample). -/
theorem C5_tap_buffer_amended :
    (∀ events : List Tap.TapEvent,
        (Tap.runTap events).feedData.length ≤ 100 ∧
        (Tap.runTap events).commentData.length ≤ 100) ∧
    (∀ (α : Type) (d : List (String × α)) (ts : List (String × ℕ)), d ≠ [] →
        ∃ k, Tap.evictChoice d ts = some k ∧ k ∈ d.map Prod.fst ∧
          ∀ p ∈ d, (ts.lookup p.1).isSome = true →
            (ts.lookup k).isSome = true ∧ Tap.tsKey ts k ≤ Tap.tsKey ts p.1) := by
  constructor
  · exact fun events =>
      ⟨(Tap.goodTap_runTap events).1.1, (Tap.goodTap_runTap events).2.1⟩
  · exact fun α d ts hne => Tap.evictChoice_spec d ts hne

/-- Witness for C5's amended theorem at concrete inputs. -/
theorem C5_tap_buffer_amended_witness :
    ((Tap.runTap [Tap.TapEvent.feed "a" (.bool true) 5]).feedData.length ≤ 100 ∧
      (Tap.runTap [Tap.TapEvent.feed "a" (.bool true) 5]).commentData.length ≤ 100) ∧
    (∃ k, Tap.evictChoice [("a", Json.null), ("b", Json.null)]
            [("a", 5), ("b", 3)] = some k ∧
          k ∈ [("a", Json.null), ("b", Json.null)].map Prod.fst ∧
          ∀ p ∈ [("a", Json.null), ("b", Json.null)],
            (List.lookup p.1 [("a", 5), ("b", 3)]).isSome = true →
            (List.lookup k [("a", 5), ("b", 3)]).isSome = true ∧
              Tap.tsKey [("a", 5), ("b", 3)] k ≤ Tap.tsKey [("a", 5), ("b", 3)] p.1) :=
  ⟨C5_tap_buffer_amended.1 _,
   C5_tap_buffer_amended.2 Json [("a", Json.null), ("b", Json.null)]
     [("a", 5), ("b", 3)] (by simp)⟩

set_option maxRecDepth 20000 in
set_option maxHeartbeats 2000000 in
/-- C5 counterexample: in the trace `Tap.cexEvents`, the comment-buffer
entry with the oldest capture timestamp is `"A"` (its comments were
captured first, at time 1), yet when the insertion at time 102 overflows
the buffer the tap evicts `natName 0` (captured at time 2) and keeps
`"A"` — the intervening *feed* capture for `"A"` overwrote the shared
per-identity timestamp to 101.  The final length 100 shows the insertion
did overflow the cap and an eviction took place. -/
theorem C5_tap_eviction_cex :
    ((Tap.runTap Tap.cexEvents).commentData.lookup "A").isSome = true ∧
    ((Tap.runTap Tap.cexEvents).commentData.lookup (Tap.natName 0)).isSome = false ∧
    (Tap.runTap Tap.cexEvents).commentData.length = 100 := by
  decide

namespace Tap

lemma wait_for_found (nf nc : Bool) (fin v : TapView) :
    ∀ (pre post : List TapView), (∀ u ∈ pre, condMet nf nc u = false) →
      condMet nf nc v = true →
      wait_for nf nc (pre ++ v :: post) fin =
        ⟨maskedFeed nf v, maskedComments nc v, false⟩ := by
  intro pre
  induction pre with
  | nil =>
    intro post _ hv
    rw [List.nil_append]
    unfold wait_for
    rw [if_pos hv]
  | cons u rest ih =>
    intro post hpre hv
    rw [List.cons_append]
    unfold wait_for
    rw [if_neg (by simp [hpre u (by simp)])]
    exact ih post (fun x hx => hpre x (by simp [hx])) hv

lemma wait_for_timeout (nf nc : Bool) (fin : TapView) :
    ∀ ticks : List TapView, (∀ v ∈ ticks, condMet nf nc v = false) →
      wait_for nf nc ticks fin =
        ⟨maskedFeed nf fin, maskedComments nc fin, true⟩ := by
  intro ticks
  induction ticks with
  | nil => intro _; rfl
  | cons v rest ih =>
    intro h
    unfold wait_for
    rw [if_neg (by simp [h v (by simp)])]
    exact ih (fun x hx => h x (by simp [hx]))

end Tap

/-- C6: `wait_for` returns at the *first* poll tick (before the deadline)
whose buffer observation satisfies all requested conditions, with that
observation's data and `timed_out = False`; if no in-deadline tick
satisfies them it performs one final buffer read after the deadline and
returns that (partial) data with `timed_out = True`.
(`passive_tap.py` lines 89-137.) -/
theorem C6_wait_for_spec :
    ∀ (needFeed needComments : Bool) (ticks : List Tap.TapView)
      (fin : Tap.TapView),
      ((∀ v ∈ ticks, Tap.condMet needFeed needComments v = false) →
        Tap.wait_for needFeed needComments ticks fin =
          ⟨Tap.maskedFeed needFeed fin, Tap.maskedComments needComments fin,
            true⟩) ∧
      (∀ (pre post : List Tap.TapView) (v : Tap.TapView),
        ticks = pre ++ v :: post →
        (∀ u ∈ pre, Tap.condMet needFeed needComments u = false) →
        Tap.condMet needFeed needComments v = true →
        Tap.wait_for needFeed needComments ticks fin =
          ⟨Tap.maskedFeed needFeed v, Tap.maskedComments needComments v,
            false⟩) := by
  intro nf nc ticks fin
  constructor
  · exact Tap.wait_for_timeout nf nc fin ticks
  · intro pre post v hticks hpre hv
    rw [hticks]
    exact Tap.wait_for_found nf nc fin v pre post hpre hv

/-- Witness for C6: with `need_feed` only, a trace whose second tick has
feed data returns that tick's data without timing out, and a trace with no
data returns the final read with `timed_out = true`. -/
theorem C6_wait_for_spec_witness :
    Tap.wait_for true false
        [⟨none, []⟩, ⟨some (.str "f"), []⟩] ⟨none, []⟩ =
      ⟨some (.str "f"), [], false⟩ ∧
    Tap.wait_for true false [⟨none, []⟩] ⟨some (.str "g"), []⟩ =
      ⟨some (.str "g"), [], true⟩ := by
  constructor
  · exact (C6_wait_for_spec true false [⟨none, []⟩, ⟨some (.str "f"), []⟩]
      ⟨none, []⟩).2 [⟨none, []⟩] [] ⟨some (.str "f"), []⟩ rfl
      (by decide) (by decide)
  · exact (C6_wait_for_spec true false [⟨none, []⟩] ⟨some (.str "g"), []⟩).1
      (by decide)

/-- C9 (code bug): while waiting for tap data, `_fetch_post_detail_hybrid`'s
own polling loops (hybrid.py lines 76-88) wait with plain `time.sleep(0.1)`
— a non-yielding sleep during which the host page's response callbacks
cannot fire — contradicting the documented requirement in
`PassiveTap.wait_for` ("Uses page.wait_for_timeout() internally … time.sleep()
does NOT work", passive_tap.py lines 98-102), which is the only wait that
yields to the host's event-processing primitive. -/
theorem C9_plain_sleep_in_tap_poll :
    Hybrid.WaitAction.plainSleep (1/10) ∈ Hybrid.hybridTapPollWaits 1 ∧
    Hybrid.WaitAction.plainSleep (1/10) ∈ Hybrid.hybridCommentsPollWaits 1 ∧
    Hybrid.waitForWaits [100, 100] =
      [Hybrid.WaitAction.hostYield 100, Hybrid.WaitAction.hostYield 100] := by
  refine ⟨?_, ?_, rfl⟩ <;>
    simp [Hybrid.hybridTapPollWaits, Hybrid.hybridCommentsPollWaits]

/-- C1 counterexample: for a card with a note id and URL, an attempt in
which `adapter.open_detail` raises and the *unguarded*
`adapter.has_captcha` call inside the exception handler (hybrid.py line
145) also raises — a crashed/detached page makes every adapter page access
raise — makes `_fetch_post_detail_hybrid` propagate the handler's
exception to its caller instead of returning a card-only post. -/
theorem C1_fetch_detail_cex :
    Hybrid.fetch_post_detail_hybrid Hybrid.cardN Hybrid.envHandlerRaises 10 =
      .error ⟨"has_captcha: page crashed"⟩ := rfl

/-- C1 (amended): provided the card carries a `note_id` and, in the
exception handler, `adapter.has_captcha` returns rather than raises and
`build_post_from_card` succeeds (automatic when the card has a truthy
URL), no exception escapes `_fetch_post_detail_hybrid`: whenever the
`try:` body raises `e`, the function returns the card-only post built
from the card with `card_only` set and `card_only_reason` equal to `""`
when the handler's overlay check reports a CAPTCHA, `"modal_timeout"`
when `str(e)` contains `"Timeout"`, else `"empty_content"`, paired with
the captcha classification. -/
theorem C1_fetch_detail_amended (card : Card) (env : Hybrid.FetchEnv)
    (mc : ℕ) (nid : String) (hnid : card.noteId = some nid)
    (b : Bool) (hcap : env.hasCaptchaH = .ok b)
    (p : Hybrid.Post)
    (hurl : Hybrid.build_post_from_cardE card env.buildPostUrl = .ok p) :
    (∃ r, Hybrid.fetch_post_detail_hybrid card env mc = .ok r) ∧
    ∀ e, Hybrid.fetchBody nid card env mc = .error e →
      Hybrid.fetch_post_detail_hybrid card env mc =
        .ok ({ p with
          cardOnly := true,
          cardOnlyReason := some (if b then ""
            else if Hybrid.strContains e.msg "Timeout" then "modal_timeout"
            else "empty_content") }, b) := by
  unfold Hybrid.fetch_post_detail_hybrid
  rw [hnid]
  dsimp only
  constructor
  · match hb : Hybrid.fetchBody nid card env mc with
    | .ok r => exact ⟨r, rfl⟩
    | .error e =>
      rw [hcap, hurl]
      exact ⟨_, rfl⟩
  · intro e he
    rw [he, hcap, hurl]

/-- Witness for C1's amended theorem: the body raises (`open_detail`
crashed) but the handler's overlay check answers; the attempt returns a
result instead of raising. -/
theorem C1_fetch_detail_amended_witness :
    ∃ r, Hybrid.fetch_post_detail_hybrid Hybrid.cardN Hybrid.envHandlerOk 10 =
      .ok r :=
  (C1_fetch_detail_amended Hybrid.cardN Hybrid.envHandlerOk 10 "n1" rfl
    false rfl (Hybrid.postFromCardWithUrl Hybrid.cardN "u") rfl).1

namespace Hybrid

lemma postFailureCheck_captchaMode (s : SessState) (a : Bool) :
    (postFailureCheck s a).captchaMode = s.captchaMode := by
  unfold postFailureCheck
  split <;> rfl

lemma postFailureCheck_cc (s : SessState) (a : Bool) :
    (postFailureCheck s a).consecutiveCaptchas = s.consecutiveCaptchas := by
  unfold postFailureCheck
  split <;> rfl

/-- In CAPTCHA-avoidance mode the loop body takes the cheap card-only
branch: the mode persists, the produced post is card-only with reason
`"skipped"`/`"captcha"`. -/
lemma cardStep_mode_on (bu : String → String) (s : SessState) (inp : CardInput)
    (hm : s.captchaMode = true) :
    (cardStep bu s inp).1.captchaMode = true ∧
    (cardStep bu s inp).2.cardOnly = true ∧
    (cardStep bu s inp).2.cardOnlyReason =
      some (if inp.card.skipDetail then "skipped" else "captcha") := by
  unfold cardStep
  rw [hm]
  rw [if_pos (by simp : (true || inp.card.skipDetail) = true)]
  dsimp only
  refine ⟨?_, ?_, ?_⟩
  · rw [postFailureCheck_captchaMode]
    split
    · rfl
    · exact hm
  · unfold withTrending
    split <;> rfl
  · unfold withTrending
    split <;> rfl

/-- In CAPTCHA-avoidance mode the loop body never consults the fetch
outcome: the detail fetch is skipped entirely. -/
lemma cardStep_mode_on_eq (bu : String → String) (s : SessState)
    (inp : CardInput) (hm : s.captchaMode = true) (fr : Post × Bool)
    (ie : Bool) :
    cardStep bu s inp =
      cardStep bu s { inp with fetchResult := fr, instantElapsed := ie } := by
  have hcard : ({ inp with fetchResult := fr, instantElapsed := ie } :
      CardInput).card = inp.card := rfl
  have hauth : ({ inp with fetchResult := fr, instantElapsed := ie } :
      CardInput).authEvidence = inp.authEvidence := rfl
  unfold cardStep
  rw [hm, hcard, hauth]
  rw [if_pos (by simp : (true || inp.card.skipDetail) = true)]
  rfl

/-- Once `captcha_mode` is set it persists for the remainder of the run and
every subsequent candidate yields a card-only record. -/
lemma runCards_mode_on (bu : String → String) :
    ∀ (inps : List CardInput) (s : SessState), s.captchaMode = true →
      (runCards bu s inps).1.captchaMode = true ∧
      ∀ p ∈ (runCards bu s inps).2, p.cardOnly = true := by
  intro inps
  induction inps with
  | nil =>
    intro s hm
    exact ⟨hm, by simp [runCards]⟩
  | cons inp rest ih =>
    intro s hm
    obtain ⟨h1, h2, _⟩ := cardStep_mode_on bu s inp hm
    obtain ⟨ih1, ih2⟩ := ih (cardStep bu s inp).1 h1
    constructor
    · exact ih1
    · intro p hp
      rcases List.mem_cons.mp hp with hp | hp
      · rw [hp]
        exact h2
      · exact ih2 p hp

/-- A captcha-classified fetch outcome increments the streak and sets the
mode exactly when the streak reaches 2. -/
lemma cardStep_captcha_fetch (bu : String → String) (s : SessState)
    (inp : CardInput) (hm : s.captchaMode = false)
    (hskip : inp.card.skipDetail = false) (hc : inp.fetchResult.2 = true) :
    (cardStep bu s inp).1.captchaMode =
      decide (2 ≤ s.consecutiveCaptchas + 1) ∧
    (cardStep bu s inp).1.consecutiveCaptchas = s.consecutiveCaptchas + 1 := by
  unfold cardStep
  rw [hm, hskip]
  rw [if_neg (by simp)]
  dsimp only
  rw [hc]
  rw [if_pos rfl]
  constructor
  · rw [postFailureCheck_captchaMode]
    by_cases h : 2 ≤ s.consecutiveCaptchas + 1
    · rw [if_pos h]
      simp [h]
    · rw [if_neg h]
      have hd : (decide (2 ≤ s.consecutiveCaptchas + 1)) = false := by simp [h]
      rw [hd]
      rfl
  · rw [postFailureCheck_cc]
    split <;> rfl

end Hybrid

/-- C8 (amended): after 2 consecutive captcha classifications the session
enters CAPTCHA-avoidance mode, in which detail fetches are skipped
entirely and cheap card-only records are produced; however, the mode is
*never* left — `captcha_mode` is never reset, so for **every** continuation
of the run the mode persists and every subsequent candidate yields a
card-only record (detail fetches do not resume). -/
theorem C8_captcha_mode_amended :
    (∀ (bu : String → String) (s : Hybrid.SessState)
        (i1 i2 : Hybrid.CardInput),
      s.captchaMode = false → s.consecutiveCaptchas = 0 →
      i1.card.skipDetail = false → i2.card.skipDetail = false →
      i1.fetchResult.2 = true → i2.fetchResult.2 = true →
      (Hybrid.runCards bu s [i1, i2]).1.captchaMode = true) ∧
    (∀ (bu : String → String) (s : Hybrid.SessState) (inp : Hybrid.CardInput),
      s.captchaMode = true →
      (Hybrid.cardStep bu s inp).1.captchaMode = true ∧
      (Hybrid.cardStep bu s inp).2.cardOnly = true ∧
      (Hybrid.cardStep bu s inp).2.cardOnlyReason =
        some (if inp.card.skipDetail then "skipped" else "captcha") ∧
      ∀ (fr : Hybrid.Post × Bool) (ie : Bool),
        Hybrid.cardStep bu s inp =
          Hybrid.cardStep bu s { inp with fetchResult := fr, instantElapsed := ie }) ∧
    (∀ (bu : String → String) (s : Hybrid.SessState)
        (inps : List Hybrid.CardInput),
      s.captchaMode = true →
      (Hybrid.runCards bu s inps).1.captchaMode = true ∧
      ∀ p ∈ (Hybrid.runCards bu s inps).2, p.cardOnly = true) := by
  refine ⟨?_, ?_, ?_⟩
  · intro bu s i1 i2 hm hcc h1 h2 hc1 hc2
    have st1 := Hybrid.cardStep_captcha_fetch bu s i1 hm h1 hc1
    have hm1 : (Hybrid.cardStep bu s i1).1.captchaMode = false := by
      rw [st1.1, hcc]
      decide
    have hcc1 : (Hybrid.cardStep bu s i1).1.consecutiveCaptchas = 1 := by
      rw [st1.2, hcc]
    have st2 := Hybrid.cardStep_captcha_fetch bu (Hybrid.cardStep bu s i1).1
      i2 hm1 h2 hc2
    show (Hybrid.cardStep bu (Hybrid.cardStep bu s i1).1 i2).1.captchaMode = true
    rw [st2.1, hcc1]
    decide
  · intro bu s inp hm
    obtain ⟨h1, h2, h3⟩ := Hybrid.cardStep_mode_on bu s inp hm
    exact ⟨h1, h2, h3, fun fr ie => Hybrid.cardStep_mode_on_eq bu s inp hm fr ie⟩
  · intro bu s inps hm
    exact Hybrid.runCards_mode_on bu inps s hm

/-- Witness for C8's amended theorem: two captcha fetches on a fresh
session set the mode; with the mode on, a candidate whose fetch would have
succeeded still yields a card-only record and the mode persists. -/
theorem C8_captcha_mode_amended_witness :
    (Hybrid.runCards (fun _ => "") Hybrid.initSess
      [Hybrid.inpCaptcha, Hybrid.inpCaptcha]).1.captchaMode = true ∧
    (Hybrid.cardStep (fun _ => "")
      { Hybrid.initSess with captchaMode := true } Hybrid.inpGood).2.cardOnly
      = true ∧
    (Hybrid.runCards (fun _ => "")
      { Hybrid.initSess with captchaMode := true }
      [Hybrid.inpGood]).1.captchaMode = true := by
  refine ⟨?_, ?_, ?_⟩
  · exact C8_captcha_mode_amended.1 _ _ _ _ rfl rfl rfl rfl rfl rfl
  · exact (C8_captcha_mode_amended.2.1 _ _ _ rfl).2.1
  · exact (C8_captcha_mode_amended.2.2 _ _ _ rfl).1

/-- C8 counterexample: a concrete run — two captcha-classified attempts
followed by a maximally favorable candidate (`inpGood`: a fetch that would
return non-empty content with no CAPTCHA, and no auth evidence) — in which
detail fetching does *not* resume: the third record is card-only with
reason `"captcha"` and the mode is still on afterwards.  Together with the
universal persistence in the amended theorem, this refutes "the session
leaves this mode again when health evidence says otherwise". -/
theorem C8_captcha_mode_cex :
    (Hybrid.runCards (fun _ => "") Hybrid.initSess
      [Hybrid.inpCaptcha, Hybrid.inpCaptcha, Hybrid.inpGood]).1.captchaMode
      = true ∧
    ((Hybrid.runCards (fun _ => "") Hybrid.initSess
      [Hybrid.inpCaptcha, Hybrid.inpCaptcha, Hybrid.inpGood]).2.getD 2
        ({} : Hybrid.Post)).cardOnly = true ∧
    ((Hybrid.runCards (fun _ => "") Hybrid.initSess
      [Hybrid.inpCaptcha, Hybrid.inpCaptcha, Hybrid.inpGood]).2.getD 2
        ({} : Hybrid.Post)).cardOnlyReason = some "captcha" :=
  ⟨rfl, rfl, rfl⟩

end ScraperKit
